import Mathlib

set_option maxRecDepth 100000

/-!
Shallow embedding of `monitor.py` (Monitor Moon): the stat collector
`get_server_stats`, the bandwidth delta tracker `get_bandwidth_usage`,
the byte formatter `format_bytes`, and the report generators
`generate_monitoring_report` / `send_daily_report`.

Python floats are modelled as exact rationals (ℚ); Python `round(x, 1)`
is round-half-to-even at one decimal, `int(x)` truncates toward zero.
Clock readings (`time.time()`) are passed in explicitly: one invocation
of `get_bandwidth_usage` can read the clock twice (once when computing
`time_diff`, once when storing the new sample), so both readings are
parameters.  Exceptions are modelled with `Except String`.
-/

/-- Executable floor on ℚ (the `Int.floor` of Mathlib does not reduce
in the kernel). -/
def ratFloor (q : ℚ) : ℤ := q.num / q.den

theorem ratFloor_eq (q : ℚ) : ratFloor q = ⌊q⌋ := Rat.floor_def.symm

/-- Round-half-to-even on ℚ, the tie-breaking rule of Python `round`. -/
def roundHalfEven (q : ℚ) : ℤ :=
  let f := ratFloor q
  let r := q - (f : ℚ)
  if r < 1/2 then f
  else if 1/2 < r then f + 1
  else if f % 2 = 0 then f else f + 1

/-- Python `round(x, 1)`: round to one decimal place, ties to even. -/
def pyRound1 (q : ℚ) : ℚ := (roundHalfEven (10 * q) : ℚ) / 10

/-- Python `int(x)` on a float: truncation toward zero. -/
def pyTrunc (q : ℚ) : ℤ := if q < 0 then -(ratFloor (-q)) else ratFloor q

theorem pyTrunc_eq_floor (q : ℚ) (h : 0 ≤ q) : pyTrunc q = ⌊q⌋ := by
  simp [pyTrunc, not_lt.mpr h, ratFloor_eq]

theorem pyRound1_intCast (n : ℤ) : pyRound1 (n : ℚ) = (n : ℚ) := by
  have hfl : ratFloor (10 * (n : ℚ)) = 10 * n := by
    rw [ratFloor_eq, show (10 : ℚ) * (n : ℚ) = ((10 * n : ℤ) : ℚ) by push_cast; ring]
    exact Int.floor_intCast _
  have h1 : roundHalfEven (10 * (n : ℚ)) = 10 * n := by
    unfold roundHalfEven
    simp only [hfl]
    have : (10 * (n : ℚ)) - ((10 * n : ℤ) : ℚ) = 0 := by push_cast; ring
    rw [this]
    norm_num
  rw [pyRound1, h1]
  push_cast
  ring

/-- Value of a decimal digit character. -/
def digitVal (c : Char) : Option ℕ :=
  if '0' ≤ c ∧ c ≤ '9' then some (c.toNat - '0'.toNat) else none

/-- Accumulating parse of a digit string. -/
def digitsValGo (acc : ℕ) : List Char → Option ℕ
  | [] => some acc
  | c :: t =>
    match digitVal c with
    | some d => digitsValGo (acc * 10 + d) t
    | none => none

/-- Parse a non-empty all-digit string. -/
def digitsVal : List Char → Option ℕ
  | [] => none
  | l => digitsValGo 0 l

/-- Split a character list at the first `'.'`. -/
def splitDot : List Char → List Char × Option (List Char)
  | [] => ([], none)
  | c :: t =>
    if c = '.' then ([], some t)
    else
      let p := splitDot t
      (c :: p.1, p.2)

/-- Parse an unsigned decimal literal `digits[.digits]` (at least one
digit overall), the fragment of Python `float` syntax the monitor's
shell commands can produce. -/
def pyFloatAux (cs : List Char) : Option ℚ :=
  let p := splitDot cs
  match p.2 with
  | none => (digitsVal p.1).map (fun n => (n : ℚ))
  | some fp =>
    match p.1, fp with
    | [], [] => none
    | ip, fp =>
      let ipv : Option ℕ := if ip = [] then some 0 else digitsVal ip
      let fpv : Option ℚ :=
        if fp = [] then some 0
        else (digitsVal fp).map (fun d => (d : ℚ) / 10 ^ fp.length)
      match ipv, fpv with
      | some a, some b => some ((a : ℚ) + b)
      | _, _ => none

/-- Parse a signed decimal literal. -/
def pyFloatParse (s : String) : Option ℚ :=
  match s.data with
  | '-' :: rest => (pyFloatAux rest).map Neg.neg
  | '+' :: rest => pyFloatAux rest
  | cs => pyFloatAux cs

/-- Python `str.strip()`: drop leading and trailing whitespace. -/
def pyStrip (s : String) : String :=
  ⟨((s.data.dropWhile Char.isWhitespace).reverse.dropWhile
      Char.isWhitespace).reverse⟩

/-- `float(out.strip() or 0)`: empty output defaults to `0.0`, a
malformed literal raises `ValueError`. -/
def pyFloat (s : String) : Except String ℚ :=
  let t := pyStrip s
  if t = "" then .ok 0
  else
    match pyFloatParse t with
    | some q => .ok q
    | none => .error ("could not convert string to float: " ++ t)

/-- `needle` occurs as a contiguous substring of the character list
(`grep` line matching). -/
def hasSubstr (needle : List Char) : List Char → Bool
  | [] => needle.isEmpty
  | c :: t => needle.isPrefixOf (c :: t) || hasSubstr needle t

/-- `grep iface` hit on a line of text. -/
def strContains (hay needle : String) : Bool := hasSubstr needle.data hay.data

/-- One data row of the remote `/proc/net/dev` counter table (the two
header lines are not represented).  `label` is the first whitespace
field, interface name plus colon (e.g. `"eth0:"`); `rx`/`tx` are fields
2 and 10, the cumulative byte counters. -/
structure NetRow where
  label : String
  rx : ℕ
  tx : ℕ
deriving DecidableEq

/-- Output tokens of
`cat /proc/net/dev | grep {iface} | awk '{print $2, $10}'`:
every row whose line contains `iface` contributes its two counters. -/
def ifaceQuery (table : List NetRow) (iface : String) : List ℕ :=
  ((table.filter (fun r => strContains r.label iface)).map
    (fun r => [r.rx, r.tx])).flatten

/-- The hardcoded prioritized interface list of `get_server_stats`. -/
def interfaces : List String := ["eth0", "ens18", "ens3", "eno1", "enp1s0"]

/-- The `for interface in interfaces` loop: starting from
`rx_bytes = tx_bytes = 0`, break on the first interface whose query
yields at least two tokens. -/
def netLoop (table : List NetRow) : List String → ℕ × ℕ
  | [] => (0, 0)
  | i :: rest =>
    match ifaceQuery table i with
    | a :: b :: _ => (a, b)
    | _ => netLoop table rest

/-- Network-counter acquisition of `get_server_stats`: run the named
loop, then, if `rx_bytes == 0 and tx_bytes == 0`, fall back to
`cat /proc/net/dev | awk 'NR>2 {print $1, $2, $10}' | head -1` (the
first data row, which always yields three tokens when it exists). -/
def getNetCounters (table : List NetRow) : ℕ × ℕ :=
  let p := netLoop table interfaces
  if p.1 = 0 ∧ p.2 = 0 then
    match table with
    | [] => p
    | r :: _ => (r.rx, r.tx)
  else p

/-- Remote environment one `get_server_stats` call runs against: the
connection attempt, the stdout of the three utilization commands (or
the exception raised while running them), and the state of
`/proc/net/dev` consulted by the network commands. -/
structure SSHEnv where
  connect : Except String Unit
  cpuOut : Except String String
  ramOut : Except String String
  diskOut : Except String String
  netTable : Except String (List NetRow)

/-- The normalized per-poll metrics record (`Dict` returned by
`get_server_stats`).  The `error` key is present exactly in the
offline record. -/
structure HostMetrics where
  cpu : ℚ
  ram : ℚ
  disk : ℚ
  network_rx : ℕ
  network_tx : ℕ
  status : String
  error : Option String
deriving DecidableEq

/-- The `try` block of `get_server_stats`: connect, run and parse the
CPU / RAM / disk commands, read the network counters, and build the
online record.  Any raise short-circuits with the exception text. -/
def collectStats (env : SSHEnv) : Except String HostMetrics := do
  let _ ← env.connect
  let cpuS ← env.cpuOut
  let cpu ← pyFloat cpuS
  let ramS ← env.ramOut
  let ram ← pyFloat ramS
  let diskS ← env.diskOut
  let disk ← pyFloat diskS
  let table ← env.netTable
  let rx := (getNetCounters table).1
  let tx := (getNetCounters table).2
  pure { cpu := pyRound1 cpu, ram := pyRound1 ram, disk := pyRound1 disk,
         network_rx := rx, network_tx := tx, status := "online", error := none }

/-- `get_server_stats`: the `try` block, with every exception caught
and mapped to the all-zero offline record carrying `str(e)`. -/
def get_server_stats (env : SSHEnv) : HostMetrics :=
  match collectStats env with
  | .ok m => m
  | .error e =>
    { cpu := 0, ram := 0, disk := 0, network_rx := 0, network_tx := 0,
      status := "offline", error := some e }

example : get_server_stats
    { connect := .error "timed out", cpuOut := .ok "", ramOut := .ok "",
      diskOut := .ok "", netTable := .ok [] } =
    { cpu := 0, ram := 0, disk := 0, network_rx := 0, network_tx := 0,
      status := "offline", error := some "timed out" } := by
  with_unfolding_all decide

example : get_server_stats
    { connect := .ok (), cpuOut := .ok " 12.5 ", ramOut := .ok "40.25",
      diskOut := .ok "70", netTable := .ok [⟨"eth0:", 11, 22⟩] } =
    { cpu := 25/2, ram := 201/5, disk := 70, network_rx := 11,
      network_tx := 22, status := "online", error := none } := by
  with_unfolding_all decide

/-- Python `f"{q:.1f}"` on an exact decimal value: fixed one-decimal
rendering with ties to even. -/
def fmt1 (q : ℚ) : String :=
  let n := roundHalfEven (10 * q)
  let m := n.natAbs
  (if n < 0 then "-" else "") ++ toString (m / 10) ++ "." ++ toString (m % 10)

/-- Units consumed by the `for unit in [...]` loop of `format_bytes`
(`PB` is the after-loop fallback). -/
def unitNames : List String := ["B", "KB", "MB", "GB", "TB"]

/-- The loop of `format_bytes`: emit at the first unit where the
magnitude is below 1024, else divide by 1024 and continue; after the
last named unit emit `PB`. -/
def fbLoop (q : ℚ) : List String → String
  | [] => fmt1 q ++ " PB"
  | u :: rest => if q < 1024 then fmt1 q ++ " " ++ u else fbLoop (q / 1024) rest

/-- `format_bytes`: human-readable rendering of a byte count. -/
def format_bytes (b : ℤ) : String := fbLoop (b : ℚ) unitNames

/-- Number of divisions by 1024 that `format_bytes` performs, i.e. the
index of the unit it picks in `B, KB, MB, GB, TB, PB`. -/
def unitIndexLoop (q : ℚ) : List String → ℕ
  | [] => 0
  | _ :: rest => if q < 1024 then 0 else unitIndexLoop (q / 1024) rest + 1

/-- Index of the unit `format_bytes b` renders with. -/
def unitIndex (b : ℤ) : ℕ := unitIndexLoop (b : ℚ) unitNames

example : format_bytes 1536 = "1.5 KB" := by with_unfolding_all decide
example : format_bytes 0 = "0.0 B" := by with_unfolding_all decide

/-- One stored entry of `self.last_stats`: the last observed cumulative
counters and the clock reading stored with them. -/
structure Sample where
  rx : ℕ
  tx : ℕ
  time : ℚ
deriving DecidableEq

/-- Lookup in the `last_stats` dict (modelled as an association list
keyed by server name). -/
def dictGet (n : String) : List (String × Sample) → Option Sample
  | [] => none
  | (k, v) :: rest => if k = n then some v else dictGet n rest

/-- Assignment `d[n] = v` on the dict: overwrite in place or append. -/
def setEntry (n : String) (v : Sample) : List (String × Sample) → List (String × Sample)
  | [] => [(n, v)]
  | (k, w) :: rest =>
    if k = n then (k, v) :: rest else (k, w) :: setEntry n v rest

/-- `get_bandwidth_usage(server, current_rx, current_tx)`.

`now₁` is the `time.time()` reading the call observes first (used for
the cold-case store and for `time_diff`); `now₂` is the second reading
(stored with the updated sample in the warm path).  Returns the
`(rx_usage, tx_usage)` pair and the updated `last_stats` dict. -/
def get_bandwidth_usage (interval : ℚ) (last_stats : List (String × Sample))
    (name : String) (current_rx current_tx : ℕ) (now₁ now₂ : ℚ) :
    (ℤ × ℤ) × List (String × Sample) :=
  match dictGet name last_stats with
  | none =>
    ((0, 0), setEntry name ⟨current_rx, current_tx, now₁⟩ last_stats)
  | some last =>
    let time_diff := now₁ - last.time
    if time_diff < 60 then ((0, 0), last_stats)
    else
      let rx_per_sec : ℚ :=
        if time_diff > 0 then ((current_rx : ℚ) - (last.rx : ℚ)) / time_diff else 0
      let tx_per_sec : ℚ :=
        if time_diff > 0 then ((current_tx : ℚ) - (last.tx : ℚ)) / time_diff else 0
      let rx_usage := pyTrunc (rx_per_sec * interval * 60)
      let tx_usage := pyTrunc (tx_per_sec * interval * 60)
      ((rx_usage, tx_usage),
       setEntry name ⟨current_rx, current_tx, now₂⟩ last_stats)

example :
    get_bandwidth_usage 15 [("A", ⟨100, 200, 0⟩)] "A" 300 500 100 101 =
      ((1800, 2700), [("A", ⟨300, 500, 101⟩)]) := by
  with_unfolding_all decide

example :
    get_bandwidth_usage 15 [("A", ⟨100, 200, 0⟩)] "A" 300 500 30 31 =
      ((0, 0), [("A", ⟨100, 200, 0⟩)]) := by
  with_unfolding_all decide

/-- One server's inputs for one polling cycle: its configured name, the
remote environment its poll runs against, and the two clock readings a
`get_bandwidth_usage` call on it would observe. -/
structure PollEvent where
  name : String
  env : SSHEnv
  now₁ : ℚ
  now₂ : ℚ

/-- One per-server section of the interval report: either the online
block (name, formatted input/output/total and the three utilization
figures) or the offline block, which carries only the name and the
error text. -/
inductive ReportEntry where
  | online (name input output total : String) (cpu ram disk : ℚ)
  | offline (name : String) (error : String)
deriving DecidableEq

/-- `stats.get('error', 'Connection failed')`. -/
def errorText (m : HostMetrics) : String :=
  match m.error with
  | some e => e
  | none => "Connection failed"

/-- The online section built for one server. -/
def mkOnlineEntry (name : String) (u : ℤ × ℤ) (m : HostMetrics) : ReportEntry :=
  .online name (format_bytes u.1) (format_bytes u.2) (format_bytes (u.1 + u.2))
    m.cpu m.ram m.disk

/-- Result of one interval report generation: the per-server sections
in configuration order, the accumulated `total_rx`/`total_tx`, and the
`last_stats` dict after the cycle. -/
structure CycleResult where
  entries : List ReportEntry
  total_rx : ℤ
  total_tx : ℤ
  state : List (String × Sample)
deriving DecidableEq

/-- The `for server in self.config['servers']` loop of
`generate_monitoring_report`, threading the entry accumulator, the two
running totals and the tracker dict. -/
def cycleGo (interval : ℚ) :
    List PollEvent → List ReportEntry → ℤ → ℤ → List (String × Sample) → CycleResult
  | [], acc, trx, ttx, st => ⟨acc, trx, ttx, st⟩
  | ev :: rest, acc, trx, ttx, st =>
    let stats := get_server_stats ev.env
    if stats.status = "online" then
      let r := get_bandwidth_usage interval st ev.name stats.network_rx
        stats.network_tx ev.now₁ ev.now₂
      cycleGo interval rest (acc ++ [mkOnlineEntry ev.name r.1 stats])
        (trx + r.1.1) (ttx + r.1.2) r.2
    else
      cycleGo interval rest (acc ++ [.offline ev.name (errorText stats)])
        trx ttx st

/-- `generate_monitoring_report` (the date/time header and the emoji
layout are presentation; the entries, totals and tracker state are the
content). -/
def generate_monitoring_report (interval : ℚ) (servers : List PollEvent)
    (st : List (String × Sample)) : CycleResult :=
  cycleGo interval servers [] 0 0 st

/-- One per-server section of the daily report.  The daily format has
no status or error field at all: every server is rendered through the
same block. -/
structure DailyEntry where
  name : String
  avgInput : String
  avgOutput : String
  avgTotal : String
  cpuMin : ℚ
  cpuMax : ℚ
  ramMin : ℚ
  ramMax : ℚ
  diskMin : ℚ
  diskMax : ℚ
deriving DecidableEq

/-- The block `send_daily_report` renders for one server. -/
def dailyEntry (name : String) (env : SSHEnv) : DailyEntry :=
  let stats := get_server_stats env
  { name := name
    avgInput := format_bytes stats.network_rx
    avgOutput := format_bytes stats.network_tx
    avgTotal := format_bytes ((stats.network_rx : ℤ) + (stats.network_tx : ℤ))
    cpuMin := max 0 (stats.cpu - 10)
    cpuMax := stats.cpu + 10
    ramMin := max 0 (stats.ram - 15)
    ramMax := stats.ram + 15
    diskMin := max 0 (stats.disk - 5)
    diskMax := stats.disk + 5 }

/-- `send_daily_report`: one daily block per configured server; the
tracker dict is never consulted or modified. -/
def send_daily_report (servers : List (String × SSHEnv)) : List DailyEntry :=
  servers.map (fun p => dailyEntry p.1 p.2)

theorem dictGet_setEntry_self (n : String) (v : Sample) :
    ∀ l, dictGet n (setEntry n v l) = some v := by
  intro l
  induction l with
  | nil => simp [setEntry, dictGet]
  | cons hd tl ih =>
    obtain ⟨k, w⟩ := hd
    by_cases h : k = n <;> simp [setEntry, dictGet, h, ih]

theorem dictGet_setEntry_ne (n k : String) (v : Sample) (h : k ≠ n) :
    ∀ l, dictGet n (setEntry k v l) = dictGet n l := by
  intro l
  induction l with
  | nil => simp [setEntry, dictGet, h]
  | cons hd tl ih =>
    obtain ⟨k', w⟩ := hd
    by_cases h' : k' = k <;> by_cases h'' : k' = n <;>
      simp_all [setEntry, dictGet]

/-- C3: on the first call for a host (no stored sample), the tracker
returns exactly `(0, 0)` and stores the current counters with the
clock reading it just took. -/
theorem get_bandwidth_usage_first_call (interval : ℚ)
    (st : List (String × Sample)) (name : String) (rx tx : ℕ) (n₁ n₂ : ℚ)
    (hs : dictGet name st = none) :
    (get_bandwidth_usage interval st name rx tx n₁ n₂).1 = (0, 0) ∧
    dictGet name (get_bandwidth_usage interval st name rx tx n₁ n₂).2 =
      some ⟨rx, tx, n₁⟩ := by
  refine ⟨by simp only [get_bandwidth_usage, hs], ?_⟩
  simp only [get_bandwidth_usage, hs]
  exact dictGet_setEntry_self name ⟨rx, tx, n₁⟩ st

/-- Witness for C3 at a concrete input. -/
theorem get_bandwidth_usage_first_call_witness :
    (get_bandwidth_usage 15 [] "A" 300 500 100 101).1 = (0, 0) ∧
    dictGet "A" (get_bandwidth_usage 15 [] "A" 300 500 100 101).2 =
      some ⟨300, 500, 100⟩ :=
  get_bandwidth_usage_first_call 15 [] "A" 300 500 100 101 rfl

/-- C4: with a stored sample and less than 60 seconds elapsed, the
tracker returns `(0, 0)` and leaves the dict — in particular the
stored sample — completely unchanged. -/
theorem get_bandwidth_usage_rapid_noop (interval : ℚ)
    (st : List (String × Sample)) (name : String) (s : Sample)
    (rx tx : ℕ) (n₁ n₂ : ℚ)
    (hs : dictGet name st = some s) (ht : n₁ - s.time < 60) :
    get_bandwidth_usage interval st name rx tx n₁ n₂ = ((0, 0), st) := by
  simp only [get_bandwidth_usage, hs, if_pos ht]

/-- Witness for C4 at a concrete input. -/
theorem get_bandwidth_usage_rapid_noop_witness :
    get_bandwidth_usage 15 [("A", ⟨100, 200, 0⟩)] "A" 300 500 30 31 =
      ((0, 0), [("A", ⟨100, 200, 0⟩)]) :=
  get_bandwidth_usage_rapid_noop 15 [("A", ⟨100, 200, 0⟩)] "A" ⟨100, 200, 0⟩
    300 500 30 31 (by with_unfolding_all decide) (by norm_num)

/-- C2: with a stored sample, non-negative monotone counters, a
non-negative configured interval and at least 60 seconds elapsed, the
tracker returns the rate-extrapolated usage
`(rx₂-rx₁)/t * interval * 60` (floored by `int()` truncation, which on
these non-negative values is the floor), and afterwards stores the
current counters with the clock reading taken at update time. -/
theorem get_bandwidth_usage_warm_delta (interval : ℚ)
    (st : List (String × Sample)) (name : String) (s : Sample)
    (rx₂ tx₂ : ℕ) (n₁ n₂ : ℚ)
    (hs : dictGet name st = some s) (hi : 0 ≤ interval)
    (ht : 60 ≤ n₁ - s.time) (hrx : s.rx ≤ rx₂) (htx : s.tx ≤ tx₂) :
    (get_bandwidth_usage interval st name rx₂ tx₂ n₁ n₂).1 =
      (⌊((rx₂ : ℚ) - (s.rx : ℚ)) / (n₁ - s.time) * interval * 60⌋,
       ⌊((tx₂ : ℚ) - (s.tx : ℚ)) / (n₁ - s.time) * interval * 60⌋) ∧
    dictGet name (get_bandwidth_usage interval st name rx₂ tx₂ n₁ n₂).2 =
      some ⟨rx₂, tx₂, n₂⟩ := by
  have htpos : (0 : ℚ) < n₁ - s.time := lt_of_lt_of_le (by norm_num) ht
  have hnlt : ¬ (n₁ - s.time < 60) := not_lt.mpr ht
  have hrx' : (0 : ℚ) ≤ (rx₂ : ℚ) - (s.rx : ℚ) :=
    sub_nonneg.mpr (by exact_mod_cast hrx)
  have htx' : (0 : ℚ) ≤ (tx₂ : ℚ) - (s.tx : ℚ) :=
    sub_nonneg.mpr (by exact_mod_cast htx)
  have hrrx : (0 : ℚ) ≤ ((rx₂ : ℚ) - (s.rx : ℚ)) / (n₁ - s.time) * interval * 60 :=
    mul_nonneg (mul_nonneg (div_nonneg hrx' htpos.le) hi) (by norm_num)
  have hrtx : (0 : ℚ) ≤ ((tx₂ : ℚ) - (s.tx : ℚ)) / (n₁ - s.time) * interval * 60 :=
    mul_nonneg (mul_nonneg (div_nonneg htx' htpos.le) hi) (by norm_num)
  simp only [get_bandwidth_usage, hs, if_neg hnlt, if_pos htpos]
  exact ⟨by rw [pyTrunc_eq_floor _ hrrx, pyTrunc_eq_floor _ hrtx],
    dictGet_setEntry_self name ⟨rx₂, tx₂, n₂⟩ st⟩

/-- Witness for C2 at a concrete input: counters grew by 200/300 bytes
over 100 s with a 15-minute interval, so the extrapolated usage is
(1800, 2700). -/
theorem get_bandwidth_usage_warm_delta_witness :
    (get_bandwidth_usage 15 [("A", ⟨100, 200, 0⟩)] "A" 300 500 100 101).1 =
      (1800, 2700) ∧
    dictGet "A" (get_bandwidth_usage 15 [("A", ⟨100, 200, 0⟩)] "A" 300 500 100 101).2 =
      some ⟨300, 500, 101⟩ := by
  have h := get_bandwidth_usage_warm_delta 15 [("A", ⟨100, 200, 0⟩)] "A"
    ⟨100, 200, 0⟩ 300 500 100 101 (by with_unfolding_all decide)
    (by norm_num) (by norm_num) (by decide) (by decide)
  refine ⟨?_, h.2⟩
  rw [h.1]
  norm_num

/-- C1: `get_server_stats` is a total function of its environment
(it never raises), and whenever any exception occurs during connection
establishment or the command sequence, it returns the record with
status `offline`, every numeric field 0 and the exception's text as
error description — no partial metrics survive; when the exception
text is non-empty the error description is non-empty. -/
theorem get_server_stats_failure_offline (env : SSHEnv) (e : String)
    (he : e ≠ "") (h : collectStats env = .error e) :
    get_server_stats env =
      { cpu := 0, ram := 0, disk := 0, network_rx := 0, network_tx := 0,
        status := "offline", error := some e } ∧
    ∃ msg, (get_server_stats env).error = some msg ∧ msg ≠ "" := by
  have hg : get_server_stats env =
      { cpu := 0, ram := 0, disk := 0, network_rx := 0, network_tx := 0,
        status := "offline", error := some e } := by
    simp only [get_server_stats, h]
  exact ⟨hg, e, by rw [hg], he⟩

/-- Witness for C1: a connection failure after which the CPU command
would even have produced a valid value. -/
theorem get_server_stats_failure_offline_witness :
    get_server_stats
      { connect := .error "timed out", cpuOut := .ok "42.3", ramOut := .ok "55.0",
        diskOut := .ok "70", netTable := .ok [⟨"eth0:", 9, 9⟩] } =
      { cpu := 0, ram := 0, disk := 0, network_rx := 0, network_tx := 0,
        status := "offline", error := some "timed out" } ∧
    ∃ msg, (get_server_stats
      { connect := .error "timed out", cpuOut := .ok "42.3", ramOut := .ok "55.0",
        diskOut := .ok "70", netTable := .ok [⟨"eth0:", 9, 9⟩] }).error =
        some msg ∧ msg ≠ "" :=
  get_server_stats_failure_offline _ "timed out" (by decide) rfl

/-- Counterexample to C6 as stated: with remote disk output `70.57`
the poll is online and the disk field is `70.6` — a one-decimal,
non-integer value (denominator 5), produced by the same `round(x, 1)`
applied to CPU and RAM. -/
theorem disk_one_decimal_counterexample :
    (get_server_stats
      { connect := .ok (), cpuOut := .ok "10", ramOut := .ok "20",
        diskOut := .ok "70.57", netTable := .ok [] }).status = "online" ∧
    (get_server_stats
      { connect := .ok (), cpuOut := .ok "10", ramOut := .ok "20",
        diskOut := .ok "70.57", netTable := .ok [] }).disk = 353/5 ∧
    ((get_server_stats
      { connect := .ok (), cpuOut := .ok "10", ramOut := .ok "20",
        diskOut := .ok "70.57", netTable := .ok [] }).disk).den ≠ 1 := by
  with_unfolding_all decide

/-- C6 (amended): in a successful poll CPU, RAM and disk are all
rounded to one decimal place — disk receives exactly the same
`round(x, 1)` as CPU and RAM, so it is an integer only when the remote
`df` output is. -/
theorem get_server_stats_rounding (env : SSHEnv) (sc sr sd : String)
    (tbl : List NetRow) (c r d : ℚ)
    (hconn : env.connect = .ok ()) (hc : env.cpuOut = .ok sc)
    (hpc : pyFloat sc = .ok c) (hr : env.ramOut = .ok sr)
    (hpr : pyFloat sr = .ok r) (hd : env.diskOut = .ok sd)
    (hpd : pyFloat sd = .ok d) (hn : env.netTable = .ok tbl) :
    get_server_stats env =
      { cpu := pyRound1 c, ram := pyRound1 r, disk := pyRound1 d,
        network_rx := (getNetCounters tbl).1,
        network_tx := (getNetCounters tbl).2,
        status := "online", error := none } := by
  simp only [get_server_stats, collectStats, hconn, hc, hpc, hr, hpr, hd, hpd,
    hn, bind, Except.bind, pure, Except.pure]

/-- Witness for C6's amended theorem: fractional remote outputs are
one-decimal rounded in all three fields. -/
theorem get_server_stats_rounding_witness :
    get_server_stats
      { connect := .ok (), cpuOut := .ok "12.5", ramOut := .ok "40.25",
        diskOut := .ok "70.57", netTable := .ok [⟨"eth0:", 5, 6⟩] } =
      { cpu := pyRound1 (25/2), ram := pyRound1 (161/4), disk := pyRound1 (7057/100),
        network_rx := (getNetCounters [⟨"eth0:", 5, 6⟩]).1,
        network_tx := (getNetCounters [⟨"eth0:", 5, 6⟩]).2,
        status := "online", error := none } :=
  get_server_stats_rounding _ "12.5" "40.25" "70.57" [⟨"eth0:", 5, 6⟩]
    (25/2) (161/4) (7057/100) rfl rfl (by with_unfolding_all rfl) rfl
    (by with_unfolding_all rfl) rfl (by with_unfolding_all rfl) rfl

/-- C10: in the daily report a host whose poll failed is not marked
offline and shows no error text — the daily block carries no status or
error field at all — and it is rendered like any other host, from the
zero defaults: `0.0 B` average input/output/total and the synthetic
bands CPU Min 0 / Max 10, RAM Min 0 / Max 15, Disk Min 0 / Max 5. -/
theorem daily_report_offline_entry (name : String) (env : SSHEnv) (e : String)
    (h : collectStats env = .error e) :
    dailyEntry name env =
      { name := name, avgInput := "0.0 B", avgOutput := "0.0 B",
        avgTotal := "0.0 B", cpuMin := 0, cpuMax := 10, ramMin := 0,
        ramMax := 15, diskMin := 0, diskMax := 5 } := by
  have hg : get_server_stats env =
      { cpu := 0, ram := 0, disk := 0, network_rx := 0, network_tx := 0,
        status := "offline", error := some e } := by
    simp only [get_server_stats, h]
  have fb0 : format_bytes 0 = "0.0 B" := by with_unfolding_all decide
  simp only [dailyEntry, hg]
  norm_num [fb0]

/-- Witness for C10: a host that failed to connect gets the plain
zero-band daily block. -/
theorem daily_report_offline_entry_witness :
    dailyEntry "B"
      { connect := .error "unreachable", cpuOut := .ok "", ramOut := .ok "",
        diskOut := .ok "", netTable := .ok [] } =
      { name := "B", avgInput := "0.0 B", avgOutput := "0.0 B",
        avgTotal := "0.0 B", cpuMin := 0, cpuMax := 10, ramMin := 0,
        ramMax := 15, diskMin := 0, diskMax := 5 } :=
  daily_report_offline_entry "B" _ "unreachable" rfl

theorem netLoop_eq_find (table : List NetRow) :
    ∀ names : List String,
      netLoop table names =
        match names.find? (fun i => decide (2 ≤ (ifaceQuery table i).length)) with
        | some i => ((ifaceQuery table i).getD 0 0, (ifaceQuery table i).getD 1 0)
        | none => (0, 0) := by
  intro names
  induction names with
  | nil => rfl
  | cons i rest ih =>
    cases h : ifaceQuery table i with
    | nil => simp [netLoop, h, List.find?, ih]
    | cons a t =>
      cases t with
      | nil => simp [netLoop, h, List.find?, ih]
      | cons b t' => simp [netLoop, h, List.find?]

/-- Counterexample to C5 as stated: `eth0` is a named interface whose
counters are both present (the query yields the two tokens `0, 0`),
yet the code still consults the fallback — the zero-counter guard
`rx_bytes == 0 and tx_bytes == 0` cannot tell "no interface matched"
from "the matched interface reported zero traffic" — and returns the
first row's counters `(5, 7)` instead of `(0, 0)`. -/
theorem net_fallback_counterexample :
    ifaceQuery [⟨"lo:", 5, 7⟩, ⟨"eth0:", 0, 0⟩] "eth0" = [0, 0] ∧
    netLoop [⟨"lo:", 5, 7⟩, ⟨"eth0:", 0, 0⟩] interfaces = (0, 0) ∧
    getNetCounters [⟨"lo:", 5, 7⟩, ⟨"eth0:", 0, 0⟩] = (5, 7) ∧
    ((5, 7) : ℕ × ℕ) ≠ (0, 0) := by
  with_unfolding_all decide

/-- C5 (amended): the named loop takes the counters of the first
interface in the prioritized list (eth0, ens18, ens3, eno1, enp1s0)
whose counters are both present, and the fallback (the first row of
the counter table) is consulted exactly when the loop's result is
`(0, 0)` — that is, when no named interface matched or when the
matched one reported zero counters. -/
theorem getNetCounters_spec (table : List NetRow) :
    netLoop table interfaces =
      (match interfaces.find? (fun i => decide (2 ≤ (ifaceQuery table i).length)) with
       | some i => ((ifaceQuery table i).getD 0 0, (ifaceQuery table i).getD 1 0)
       | none => (0, 0)) ∧
    getNetCounters table =
      (if netLoop table interfaces = (0, 0) then
        match table.head? with
        | some r => (r.rx, r.tx)
        | none => (0, 0)
      else netLoop table interfaces) := by
  refine ⟨netLoop_eq_find table interfaces, ?_⟩
  simp only [getNetCounters]
  rcases hp : netLoop table interfaces with ⟨a, b⟩
  by_cases h : a = 0 ∧ b = 0
  · obtain ⟨ha, hb⟩ := h
    subst ha hb
    simp only [if_pos (And.intro rfl rfl), if_pos rfl]
    cases table <;> simp [List.head?]
  · have h' : ((a, b) : ℕ × ℕ) ≠ (0, 0) := by
      intro hc
      exact h ⟨congrArg Prod.fst hc, congrArg Prod.snd hc⟩
    rw [if_neg h, if_neg h']

theorem fbLoop_unit :
    ∀ (names : List String) (q : ℚ), ∃ v : ℚ,
      fbLoop q names =
        fmt1 v ++ " " ++ (names ++ ["PB"]).getD (unitIndexLoop q names) "PB"
  | [], q => by
    refine ⟨q, ?_⟩
    simp only [fbLoop, unitIndexLoop, List.nil_append, List.getD]
    rw [String.append_assoc]
    exact congrArg (fun s => fmt1 q ++ s) (by decide)
  | u :: rest, q => by
    by_cases hq : q < 1024
    · exact ⟨q, by simp [fbLoop, unitIndexLoop, hq]⟩
    · obtain ⟨v, hv⟩ := fbLoop_unit rest (q / 1024)
      exact ⟨v, by simp [fbLoop, unitIndexLoop, hq, hv]⟩

theorem unitIndexLoop_mono :
    ∀ (names : List String) (q₁ q₂ : ℚ), 0 ≤ q₁ → q₁ ≤ q₂ →
      unitIndexLoop q₁ names ≤ unitIndexLoop q₂ names
  | [], _, _, _, _ => le_refl 0
  | u :: rest, q₁, q₂, h0, h12 => by
    by_cases h2 : q₂ < 1024
    · have h1 : q₁ < 1024 := lt_of_le_of_lt h12 h2
      simp [unitIndexLoop, h1, h2]
    · by_cases h1 : q₁ < 1024
      · simp [unitIndexLoop, h1]
      · simp only [unitIndexLoop, if_neg h1, if_neg h2]
        have hrec := unitIndexLoop_mono rest (q₁ / 1024) (q₂ / 1024)
          (div_nonneg h0 (by norm_num)) (by gcongr)
        omega

/-- C8: `format_bytes` renders `0` as `"0.0 B"`, `1536` as `"1.5 KB"`
and `1073741824` as `"1.0 GB"`; every output is a one-decimal value
followed by the unit at position `unitIndex b` of `B, KB, MB, GB, TB,
PB` (the number of divisions by 1024 performed before the magnitude
fell below 1024 or the units ran out); and the chosen unit is monotone
non-decreasing in the input over non-negative byte counts. -/
theorem format_bytes_spec :
    format_bytes 0 = "0.0 B" ∧
    format_bytes 1536 = "1.5 KB" ∧
    format_bytes 1073741824 = "1.0 GB" ∧
    (∀ b : ℤ, ∃ v : ℚ,
      format_bytes b =
        fmt1 v ++ " " ++ (unitNames ++ ["PB"]).getD (unitIndex b) "PB") ∧
    (∀ b₁ b₂ : ℤ, 0 ≤ b₁ → b₁ ≤ b₂ → unitIndex b₁ ≤ unitIndex b₂) := by
  refine ⟨by with_unfolding_all decide, by with_unfolding_all decide,
    by with_unfolding_all decide, fun b => fbLoop_unit unitNames (b : ℚ), ?_⟩
  intro b₁ b₂ h0 h12
  exact unitIndexLoop_mono unitNames (b₁ : ℚ) (b₂ : ℚ)
    (by exact_mod_cast h0) (by exact_mod_cast h12)

/-- Witness for C8's monotonicity conjunct: 1000 bytes render in `B`
(index 0), 2048 bytes in `KB` (index 1). -/
theorem format_bytes_spec_witness : unitIndex 1000 ≤ unitIndex 2048 :=
  format_bytes_spec.2.2.2.2 1000 2048 (by norm_num) (by norm_num)

/-- Reference sum for C7: the bandwidth usage of the online hosts
only, in poll order, with the tracker state threaded exactly as the
cycle threads it; offline hosts are skipped entirely. -/
def onlineTotals (interval : ℚ) : List PollEvent → List (String × Sample) → ℤ × ℤ
  | [], _ => (0, 0)
  | ev :: rest, st =>
    let stats := get_server_stats ev.env
    if stats.status = "online" then
      let r := get_bandwidth_usage interval st ev.name stats.network_rx
        stats.network_tx ev.now₁ ev.now₂
      let t := onlineTotals interval rest r.2
      (r.1.1 + t.1, r.1.2 + t.2)
    else onlineTotals interval rest st

/-- The per-server sections of a cycle, without the accumulator
plumbing of the source loop. -/
def entriesOf (interval : ℚ) : List PollEvent → List (String × Sample) → List ReportEntry
  | [], _ => []
  | ev :: rest, st =>
    let stats := get_server_stats ev.env
    if stats.status = "online" then
      let r := get_bandwidth_usage interval st ev.name stats.network_rx
        stats.network_tx ev.now₁ ev.now₂
      mkOnlineEntry ev.name r.1 stats :: entriesOf interval rest r.2
    else .offline ev.name (errorText stats) :: entriesOf interval rest st

theorem cycleGo_spec (interval : ℚ) :
    ∀ (evs : List PollEvent) (acc : List ReportEntry) (trx ttx : ℤ)
      (st : List (String × Sample)),
      (cycleGo interval evs acc trx ttx st).entries =
        acc ++ entriesOf interval evs st ∧
      (cycleGo interval evs acc trx ttx st).total_rx =
        trx + (onlineTotals interval evs st).1 ∧
      (cycleGo interval evs acc trx ttx st).total_tx =
        ttx + (onlineTotals interval evs st).2
  | [], acc, trx, ttx, st => by simp [cycleGo, entriesOf, onlineTotals]
  | ev :: rest, acc, trx, ttx, st => by
    by_cases h : (get_server_stats ev.env).status = "online"
    · have ih := cycleGo_spec interval rest
        (acc ++ [mkOnlineEntry ev.name
          (get_bandwidth_usage interval st ev.name
            (get_server_stats ev.env).network_rx
            (get_server_stats ev.env).network_tx ev.now₁ ev.now₂).1
          (get_server_stats ev.env)])
        (trx + (get_bandwidth_usage interval st ev.name
            (get_server_stats ev.env).network_rx
            (get_server_stats ev.env).network_tx ev.now₁ ev.now₂).1.1)
        (ttx + (get_bandwidth_usage interval st ev.name
            (get_server_stats ev.env).network_rx
            (get_server_stats ev.env).network_tx ev.now₁ ev.now₂).1.2)
        (get_bandwidth_usage interval st ev.name
            (get_server_stats ev.env).network_rx
            (get_server_stats ev.env).network_tx ev.now₁ ev.now₂).2
      simp only [cycleGo, entriesOf, onlineTotals, if_pos h]
      refine ⟨?_, ?_, ?_⟩
      · rw [ih.1]; simp
      · rw [ih.2.1]; ring
      · rw [ih.2.2]; ring
    · have ih := cycleGo_spec interval rest
        (acc ++ [.offline ev.name (errorText (get_server_stats ev.env))])
        trx ttx st
      simp only [cycleGo, entriesOf, onlineTotals, if_neg h]
      refine ⟨?_, ih.2.1, ih.2.2⟩
      rw [ih.1]; simp

theorem entriesOf_length (interval : ℚ) :
    ∀ (evs : List PollEvent) (st : List (String × Sample)),
      (entriesOf interval evs st).length = evs.length
  | [], _ => rfl
  | ev :: rest, st => by
    by_cases h : (get_server_stats ev.env).status = "online" <;>
      simp [entriesOf, h, entriesOf_length interval rest]

/-- Placeholder poll used only to state positional facts with
`List.getD`. -/
def dummyPoll : PollEvent := ⟨"", ⟨.ok (), .ok "", .ok "", .ok "", .ok []⟩, 0, 0⟩

/-- Placeholder entry used only to state positional facts with
`List.getD`. -/
def dummyEntry : ReportEntry := .offline "" ""

theorem entriesOf_offline_getD (interval : ℚ) :
    ∀ (evs : List PollEvent) (st : List (String × Sample)) (i : ℕ),
      i < evs.length →
      (get_server_stats (evs.getD i dummyPoll).env).status = "offline" →
      (entriesOf interval evs st).getD i dummyEntry =
        ReportEntry.offline (evs.getD i dummyPoll).name
          (errorText (get_server_stats (evs.getD i dummyPoll).env))
  | [], _, i, hi, _ => absurd hi (by simp)
  | ev :: rest, st, 0, _, hoff => by
    simp only [List.getD_cons_zero] at hoff ⊢
    have hne : ¬ (get_server_stats ev.env).status = "online" := by
      rw [hoff]; decide
    simp [entriesOf, hne]
  | ev :: rest, st, i + 1, hi, hoff => by
    simp only [List.getD_cons_succ] at hoff ⊢
    have hi' : i < rest.length := by simpa using hi
    by_cases h : (get_server_stats ev.env).status = "online"
    · simp only [entriesOf, if_pos h, List.getD_cons_succ]
      exact entriesOf_offline_getD interval rest _ i hi' hoff
    · simp only [entriesOf, if_neg h, List.getD_cons_succ]
      exact entriesOf_offline_getD interval rest st i hi' hoff

/-- C7: in one interval report, the accumulated totals equal the sum
of the bandwidth deltas over only the hosts whose poll returned status
`online` (offline hosts contribute nothing), and every host whose poll
returned `offline` occupies its position in the report with an entry
carrying only its name and error text. -/
theorem report_totals_online_only (interval : ℚ) (servers : List PollEvent)
    (st : List (String × Sample)) :
    ((generate_monitoring_report interval servers st).total_rx,
     (generate_monitoring_report interval servers st).total_tx) =
      onlineTotals interval servers st ∧
    (generate_monitoring_report interval servers st).entries.length =
      servers.length ∧
    ∀ i : ℕ, i < servers.length →
      (get_server_stats (servers.getD i dummyPoll).env).status = "offline" →
      (generate_monitoring_report interval servers st).entries.getD i dummyEntry =
        ReportEntry.offline (servers.getD i dummyPoll).name
          (errorText (get_server_stats (servers.getD i dummyPoll).env)) := by
  have hc := cycleGo_spec interval servers [] 0 0 st
  refine ⟨?_, ?_, ?_⟩
  · rw [generate_monitoring_report] at *
    rw [hc.2.1, hc.2.2]
    simp
  · rw [generate_monitoring_report] at *
    rw [hc.1]
    simp [entriesOf_length]
  · intro i hi hoff
    rw [generate_monitoring_report] at *
    rw [hc.1]
    simpa using entriesOf_offline_getD interval servers st i hi hoff

/-- A two-host fleet: "A" polls online, "B" fails to connect. -/
def demoServers : List PollEvent :=
  [⟨"A", ⟨.ok (), .ok "42.3", .ok "55.0", .ok "70", .ok [⟨"eth0:", 9, 9⟩]⟩, 0, 0⟩,
   ⟨"B", ⟨.error "unreachable", .ok "", .ok "", .ok "", .ok []⟩, 0, 0⟩]

/-- Witness for C7: in the two-host fleet the offline host "B"
occupies its position with a name-plus-error entry. -/
theorem report_totals_online_only_witness :
    (generate_monitoring_report 15 demoServers []).entries.getD 1 dummyEntry =
      ReportEntry.offline (demoServers.getD 1 dummyPoll).name
        (errorText (get_server_stats (demoServers.getD 1 dummyPoll).env)) :=
  (report_totals_online_only 15 demoServers []).2.2 1
    (by with_unfolding_all decide) (by with_unfolding_all decide)

theorem dictGet_gbu_isSome (interval : ℚ) (st : List (String × Sample))
    (name m : String) (rx tx : ℕ) (n₁ n₂ : ℚ) :
    (dictGet m (get_bandwidth_usage interval st name rx tx n₁ n₂).2).isSome = true ↔
      (dictGet m st).isSome = true ∨ m = name := by
  cases hs : dictGet name st with
  | none =>
    simp only [get_bandwidth_usage, hs]
    by_cases h : m = name
    · subst h
      rw [dictGet_setEntry_self]
      simp
    · rw [dictGet_setEntry_ne m name _ (fun hq => h hq.symm)]
      simp [h]
  | some s =>
    simp only [get_bandwidth_usage, hs]
    by_cases ht : n₁ - s.time < 60
    · rw [if_pos ht]
      constructor
      · exact Or.inl
      · rintro (hbase | hname)
        · exact hbase
        · subst hname
          rw [hs]
          rfl
    · rw [if_neg ht]
      by_cases h : m = name
      · subst h
        rw [dictGet_setEntry_self]
        simp
      · rw [dictGet_setEntry_ne m name _ (fun hq => h hq.symm)]
        simp [h]

theorem cycleGo_state_isSome (interval : ℚ) :
    ∀ (evs : List PollEvent) (acc : List ReportEntry) (trx ttx : ℤ)
      (st : List (String × Sample)) (m : String),
      (dictGet m (cycleGo interval evs acc trx ttx st).state).isSome = true ↔
        (dictGet m st).isSome = true ∨
          ∃ ev, ev ∈ evs ∧ ev.name = m ∧
            (get_server_stats ev.env).status = "online"
  | [], acc, trx, ttx, st, m => by simp [cycleGo]
  | ev :: rest, acc, trx, ttx, st, m => by
    by_cases h : (get_server_stats ev.env).status = "online"
    · simp only [cycleGo, if_pos h]
      rw [cycleGo_state_isSome interval rest _ _ _ _ m]
      rw [dictGet_gbu_isSome]
      constructor
      · rintro ((hbase | hname) | ⟨e, he, hn, hon⟩)
        · exact Or.inl hbase
        · exact Or.inr ⟨ev, List.mem_cons_self ev rest, hname.symm, h⟩
        · exact Or.inr ⟨e, List.mem_cons_of_mem ev he, hn, hon⟩
      · rintro (hbase | ⟨e, he, hn, hon⟩)
        · exact Or.inl (Or.inl hbase)
        · rcases List.mem_cons.mp he with rfl | he'
          · exact Or.inl (Or.inr hn.symm)
          · exact Or.inr ⟨e, he', hn, hon⟩
    · simp only [cycleGo, if_neg h]
      rw [cycleGo_state_isSome interval rest _ _ _ _ m]
      constructor
      · rintro (hbase | ⟨e, he, hn, hon⟩)
        · exact Or.inl hbase
        · exact Or.inr ⟨e, List.mem_cons_of_mem ev he, hn, hon⟩
      · rintro (hbase | ⟨e, he, hn, hon⟩)
        · exact Or.inl hbase
        · rcases List.mem_cons.mp he with rfl | he'
          · exact absurd hon h
          · exact Or.inr ⟨e, he', hn, hon⟩

/-- One scheduled cycle of the process lifetime: an interval report
cycle (`run_monitoring`, which threads the tracker dict) or a daily
report cycle (`send_daily_report`, which re-polls every host but never
reads or writes `self.last_stats`). -/
inductive SchedCycle where
  | interval (polls : List PollEvent)
  | daily (servers : List (String × SSHEnv))

/-- Effect of one scheduled cycle on the tracker dict.  The daily
branch runs its polls (`send_daily_report`) but returns the dict
unchanged, exactly as monitor.py lines 247-268 never mention
`last_stats`. -/
def schedStep (interval : ℚ) (st : List (String × Sample)) :
    SchedCycle → List (String × Sample)
  | .interval polls => (generate_monitoring_report interval polls st).state
  | .daily servers =>
    let _ := send_daily_report servers
    st

/-- The tracker state over the whole process lifetime: the fold of all
scheduled cycles, interval and daily alike, starting from the empty
dict created in `__init__`. -/
def runSchedule (interval : ℚ) (trace : List SchedCycle) :
    List (String × Sample) :=
  trace.foldl (schedStep interval) []

/-- A poll of host `h` completed with status `online` somewhere in the
cycle — in either kind of cycle. -/
def onlinePollOf (h : String) : SchedCycle → Prop
  | .interval polls =>
    ∃ ev, ev ∈ polls ∧ ev.name = h ∧ (get_server_stats ev.env).status = "online"
  | .daily servers =>
    ∃ p, p ∈ servers ∧ p.1 = h ∧ (get_server_stats p.2).status = "online"

/-- Counterexample to C9 as stated: a process whose only cycle so far
is a daily one that polls host "A" online.  "A" has completed an
online poll since process start, yet the tracker dict is still empty —
`send_daily_report` collects stats without ever touching `last_stats`
— so "entry iff at least one online poll" fails for the full process
lifetime. -/
theorem daily_online_poll_counterexample :
    (get_server_stats ⟨.ok (), .ok "5", .ok "5", .ok "5", .ok []⟩).status =
      "online" ∧
    runSchedule 15
      [SchedCycle.daily [("A", ⟨.ok (), .ok "5", .ok "5", .ok "5", .ok []⟩)]] = [] ∧
    ¬ ((dictGet "A" (runSchedule 15
          [SchedCycle.daily [("A", ⟨.ok (), .ok "5", .ok "5", .ok "5", .ok []⟩)]])).isSome
            = true ↔
        ∃ cycle, cycle ∈
            [SchedCycle.daily [("A", ⟨.ok (), .ok "5", .ok "5", .ok "5", .ok []⟩)]] ∧
          onlinePollOf "A" cycle) := by
  refine ⟨by with_unfolding_all decide, rfl, fun hiff => ?_⟩
  have hrhs : ∃ cycle, cycle ∈
      [SchedCycle.daily [("A", ⟨.ok (), .ok "5", .ok "5", .ok "5", .ok []⟩)]] ∧
      onlinePollOf "A" cycle :=
    ⟨SchedCycle.daily [("A", ⟨.ok (), .ok "5", .ok "5", .ok "5", .ok []⟩)],
      List.mem_cons_self _ _,
      ("A", ⟨.ok (), .ok "5", .ok "5", .ok "5", .ok []⟩),
      List.mem_cons_self _ _, rfl, by with_unfolding_all decide⟩
  have hlhs := hiff.mpr hrhs
  simp [runSchedule, schedStep, dictGet] at hlhs

theorem runSchedule_mem_aux (interval : ℚ) :
    ∀ (trace : List SchedCycle) (st : List (String × Sample)) (h : String),
      (dictGet h (trace.foldl (schedStep interval) st)).isSome = true ↔
        (dictGet h st).isSome = true ∨
          ∃ polls, SchedCycle.interval polls ∈ trace ∧
            ∃ ev, ev ∈ polls ∧ ev.name = h ∧
              (get_server_stats ev.env).status = "online"
  | [], st, h => by simp
  | c :: rest, st, h => by
    simp only [List.foldl_cons]
    rw [runSchedule_mem_aux interval rest _ h]
    cases c with
    | interval polls =>
      simp only [schedStep]
      rw [generate_monitoring_report, cycleGo_state_isSome]
      constructor
      · rintro ((hbase | ⟨e, he, hn, hon⟩) | ⟨ps, hps, hq⟩)
        · exact Or.inl hbase
        · exact Or.inr ⟨polls, List.mem_cons_self _ _, e, he, hn, hon⟩
        · exact Or.inr ⟨ps, List.mem_cons_of_mem _ hps, hq⟩
      · rintro (hbase | ⟨ps, hps, hq⟩)
        · exact Or.inl (Or.inl hbase)
        · rcases List.mem_cons.mp hps with heq | hps'
          · injection heq with heq'
            subst heq'
            exact Or.inl (Or.inr hq)
          · exact Or.inr ⟨ps, hps', hq⟩
    | daily servers =>
      simp only [schedStep]
      constructor
      · rintro (hbase | ⟨ps, hps, hq⟩)
        · exact Or.inl hbase
        · exact Or.inr ⟨ps, List.mem_cons_of_mem _ hps, hq⟩
      · rintro (hbase | ⟨ps, hps, hq⟩)
        · exact Or.inl hbase
        · rcases List.mem_cons.mp hps with heq | hps'
          · cases heq
          · exact Or.inr ⟨ps, hps', hq⟩

/-- C9 (amended): over the whole process lifetime — any sequence of
interval and daily cycles, starting from the empty tracker — the
tracker dict has an entry for host `h` iff some poll of `h` in some
*interval* cycle returned status `online`.  Daily-cycle polls, though
they run the same stat collection, never create, refresh or delete an
entry; stored samples are refreshed only by online interval polls, and
among those only the ones at least 60 seconds after the stored sample
(the `<60 s` no-op of C4); extending the trace never falsifies the
right-hand side, so entries are never deleted. -/
theorem last_stats_membership_invariant (interval : ℚ)
    (trace : List SchedCycle) (h : String) :
    (dictGet h (runSchedule interval trace)).isSome = true ↔
      ∃ polls, SchedCycle.interval polls ∈ trace ∧
        ∃ ev, ev ∈ polls ∧ ev.name = h ∧
          (get_server_stats ev.env).status = "online" := by
  rw [runSchedule, runSchedule_mem_aux]
  simp [dictGet]
